import Mathlib

/-!
Verification development for the Threshold-backtest trading backtester.

The repository's core (`Backtester` in the TypeScript source) is shallowly
embedded here over exact rational arithmetic (`ℚ` in place of IEEE doubles).
Timestamps are kept as epoch-millisecond integers; the source's formatted
time strings and other display-only string fields are not modelled.
The repository contains two near-identical backtester variants; definitions
suffixed `V2` come from the second variant (strict comparators,
percentage-form trigger ladder), unsuffixed ones from the first.
-/

namespace Backtest

/-- Trade direction, the source's `'LONG' | 'SHORT'` string union. -/
inductive Side where
  | LONG : Side
  | SHORT : Side
deriving DecidableEq

/-- One OHLCV bar (`Candle` in `interfaces.ts`); `openPrice` stands for the
source's `open` field, which is a reserved word in Lean. -/
structure Candle where
  openTime : ℤ
  openPrice : ℚ
  high : ℚ
  low : ℚ
  close : ℚ
  volume : ℚ
  closeTime : ℤ
deriving DecidableEq

instance : Inhabited Candle := ⟨⟨0, 0, 0, 0, 0, 0, 0⟩⟩

/-- Kind tag of a trailing-stop log event. -/
inductive TrailType where
  | INITIAL : TrailType
  | TRAIL_UP : TrailType
  | TRAIL_DOWN : TrailType
  | HIT : TrailType
deriving DecidableEq

/-- One entry of a trade's trailing-stop history (`TrailingStopUpdate` plus
the optional `triggerCandle` the first variant attaches to trail events). -/
structure TrailingStopUpdate where
  price : ℚ
  time : ℤ
  type : TrailType
  market_price : ℚ
  profit_at_update : ℚ
  triggerCandle : Option Candle
deriving DecidableEq

/-- One trigger/stop pair of the ladder (`TriggerLevel`). -/
structure TriggerLevel where
  trigger : ℚ
  stopLoss : ℚ
  triggered : Bool
  hit : Bool
deriving DecidableEq

instance : Inhabited TriggerLevel := ⟨⟨0, 0, false, false⟩⟩

/-- Result of a resolved threshold crossing (the non-`NONE` payload of
`checkThresholdCrossing`; the formatted `crossed_at` string and the
`entryCandleData` provenance copy are not modelled). -/
structure Crossing where
  direction : Side
  entry_price : ℚ
  candles_until_cross : ℕ
deriving DecidableEq

/-- Entry parameters handed to `checkTradeOutcome`. -/
structure TradeEntry where
  price : ℚ
  side : Side
  size : ℚ
  dynamicThreshold : ℚ
deriving DecidableEq

/-- A resolved trade exit (`TradeExit`; the constant `'TRAILING_STOP'` type
string is not modelled). -/
structure TradeExit where
  price : ℚ
  time : ℤ
  candles_until_exit : ℕ
  trailing_stops : List TrailingStopUpdate
deriving DecidableEq

instance : Inhabited TradeExit := ⟨⟨0, 0, 0, []⟩⟩

/-- One `BalanceUpdate` record pushed by `updateBalance`. -/
structure BalanceUpdate where
  timestamp : ℤ
  balance : ℚ
  trade_pnl : ℚ
deriving DecidableEq

/-- Condensed `MatchingCandle`/trade record pushed per finalized trade; the
numeric/semantic fields are kept, the large display-string report blocks of
`TradeDetailsResult` are not modelled. -/
structure MatchingRecord where
  timestamp : ℤ
  movement : ℚ
  dynamicThreshold : ℚ
  averageMovement : ℚ
  direction : Side
  entry_price : ℚ
  pnl : ℚ
  balance_after_trade : ℚ
deriving DecidableEq

/-- Mutable run state of a `Backtester` instance: `currentBalance`,
`matchingCandles`, `balanceHistory`. -/
structure RunState where
  currentBalance : ℚ
  matchingCandles : List MatchingRecord
  balanceHistory : List BalanceUpdate
deriving DecidableEq

/-- JavaScript `array.slice(-n)`: the last `n` elements (the whole list when
`n = 0`, since `slice(-0)` is `slice(0)`). -/
def lastN (n : ℕ) (l : List Candle) : List Candle :=
  if n = 0 then l else l.drop (l.length - n)

/-- `math.mean` over a list of rationals (sum divided by length; `0` on the
empty list, where the source never calls it). -/
def mean (l : List ℚ) : ℚ := l.sum / (l.length : ℚ)

/-- The candle-under-test movement percentage of `processCandle`:
`Math.abs(close - open) / open * 100`. -/
def currentDiffV1 (c : Candle) : ℚ :=
  |c.close - c.openPrice| / c.openPrice * 100

/-- The lookback-window movement percentage of `processCandle`:
`Math.abs((close - open) / open) * 100`. -/
def windowDiffV1 (c : Candle) : ℚ :=
  |(c.close - c.openPrice) / c.openPrice| * 100

/-- `dynamicThreshold` of `processCandle`: configured multiplier `k` times
the mean movement of the last `N` lookback candles. -/
def dynamicThresholdV1 (N : ℕ) (k : ℚ) (lookbackCandles : List Candle) : ℚ :=
  k * mean ((lastN N lookbackCandles).map windowDiffV1)

/-- Legend test of the first variant's `processCandle`:
`currentDiff >= dynamicThreshold`. -/
def isLegendV1 (N : ℕ) (k : ℚ) (lookbackCandles : List Candle) (c : Candle) : Bool :=
  decide (dynamicThresholdV1 N k lookbackCandles ≤ currentDiffV1 c)

/-- Legend test of the second variant's `processCandle`:
`currentDiff > dynamicThreshold` (its movement formulas coincide with the
first variant's). -/
def isLegendV2 (N : ℕ) (k : ℚ) (lookbackCandles : List Candle) (c : Candle) : Bool :=
  decide (dynamicThresholdV1 N k lookbackCandles < currentDiffV1 c)

/-- `upward_movementThreshold` of a legend candle: `close + close * (dyn/100)`. -/
def upThreshold (c : Candle) (dynamicThreshold : ℚ) : ℚ :=
  c.close + c.close * (dynamicThreshold / 100)

/-- `downward_movementThreshold` of a legend candle: `close - close * (dyn/100)`. -/
def downThreshold (c : Candle) (dynamicThreshold : ℚ) : ℚ :=
  c.close - c.close * (dynamicThreshold / 100)

/-- Loop body of the first variant's `checkThresholdCrossing`: scan offsets
`i, i+1, ...` (fuel counts the remaining iterations of the bounded `for`),
returning `none` when the candle store ends or the fuel runs out. -/
def crossingSearch (cs : List Candle) (startIndex : ℕ) (up down : ℚ) :
    ℕ → ℕ → Option Crossing
  | 0, _ => none
  | Nat.succ fuel, i =>
    match cs.get? (startIndex + i) with
    | none => none
    | some candle =>
      if up ≤ candle.high then some ⟨Side.LONG, up, i⟩
      else if candle.low ≤ down then some ⟨Side.SHORT, down, i⟩
      else crossingSearch cs startIndex up down fuel (i + 1)

/-- First variant's `checkThresholdCrossing`: scan candles at offsets
`1 .. maxLookForwardCandles` after `startIndex` for the first crossing of
either threshold; `high >= up` (LONG) is checked before `low <= down`
(SHORT) on each candle. -/
def checkThresholdCrossing (H : ℕ) (cs : List Candle) (startIndex : ℕ)
    (up down : ℚ) : Option Crossing :=
  crossingSearch cs startIndex up down H 1

/-- Index-0 ladder entry of the first variant's `calculateTriggerLevels`:
trigger at the entry price, stop at entry `∓` thresholdValue. -/
def initialTriggerLevel (side : Side) (entryPrice thresholdValue : ℚ) : TriggerLevel :=
  ⟨entryPrice,
   (match side with
    | Side.LONG => entryPrice - thresholdValue
    | Side.SHORT => entryPrice + thresholdValue),
   true, false⟩

/-- Loop body of the first variant's `calculateTriggerLevels` for ordinal
`i ≥ 1`: `trigger = entry ± thresholdValue*i`, `stopLoss = trigger ∓
thresholdValue` (the original `thresholdValue`, fixed at entry). -/
def triggerLevelAt (side : Side) (entryPrice thresholdValue : ℚ) (i : ℕ) : TriggerLevel :=
  match side with
  | Side.LONG =>
    ⟨entryPrice + thresholdValue * (i : ℚ),
     entryPrice + thresholdValue * (i : ℚ) - thresholdValue, false, false⟩
  | Side.SHORT =>
    ⟨entryPrice - thresholdValue * (i : ℚ),
     entryPrice - thresholdValue * (i : ℚ) + thresholdValue, false, false⟩

/-- First variant's `calculateTriggerLevels`: the initial level followed by
ladder levels `1 .. maxTriggerLevels`, all from the fixed
`thresholdValue = entryPrice * (dynamicThreshold / 100)`. -/
def calculateTriggerLevels (M : ℕ) (entryPrice : ℚ) (side : Side)
    (dynamicThreshold : ℚ) : List TriggerLevel :=
  initialTriggerLevel side entryPrice (entryPrice * (dynamicThreshold / 100)) ::
    (List.range' 1 M).map
      (triggerLevelAt side entryPrice (entryPrice * (dynamicThreshold / 100)))

/-- Loop body of the second variant's `calculateTriggerLevels`:
`trigger = entry * (1 ± m*i)` and `stopLoss = entry * (1 ± m*(i-1))` where
`m = dynamicThreshold / 100`. -/
def triggerLevelV2At (side : Side) (entryPrice dynamicThreshold : ℚ) (i : ℕ) : TriggerLevel :=
  match side with
  | Side.LONG =>
    ⟨entryPrice * (1 + dynamicThreshold / 100 * (i : ℚ)),
     entryPrice * (1 + dynamicThreshold / 100 * ((i - 1 : ℕ) : ℚ)), false, false⟩
  | Side.SHORT =>
    ⟨entryPrice * (1 - dynamicThreshold / 100 * (i : ℚ)),
     entryPrice * (1 - dynamicThreshold / 100 * ((i - 1 : ℕ) : ℚ)), false, false⟩

/-- Second variant's `calculateTriggerLevels`: exactly 20 ladder levels in
percentage form; no index-0 initial entry. -/
def calculateTriggerLevelsV2 (entryPrice : ℚ) (side : Side)
    (dynamicThreshold : ℚ) : List TriggerLevel :=
  (List.range' 1 20).map (triggerLevelV2At side entryPrice dynamicThreshold)

/-- Initial-stop expression of the second variant's `checkTradeOutcome`:
`entry.price * (1 ∓ dynamicThreshold/100)`. -/
def initialStopV2 (entryPrice : ℚ) (side : Side) (dynamicThreshold : ℚ) : ℚ :=
  match side with
  | Side.LONG => entryPrice * (1 - dynamicThreshold / 100)
  | Side.SHORT => entryPrice * (1 + dynamicThreshold / 100)

/-- Stop-hit test of `checkTradeOutcome`: LONG exits on `low <= stop`,
SHORT on `high >= stop`. -/
def stopHit (side : Side) (candle : Candle) (stop : ℚ) : Bool :=
  match side with
  | Side.LONG => decide (candle.low ≤ stop)
  | Side.SHORT => decide (stop ≤ candle.high)

/-- Trigger-cross test of `checkTradeOutcome`: LONG on `high >= trigger`,
SHORT on `low <= trigger`. -/
def crossesTrigger (side : Side) (candle : Candle) (trigger : ℚ) : Bool :=
  match side with
  | Side.LONG => decide (trigger ≤ candle.high)
  | Side.SHORT => decide (candle.low ≤ trigger)

/-- The `TRAIL_UP`/`TRAIL_DOWN` event the first variant pushes when trigger
level `lvl` is crossed: new stop price, crossing market price, and the
profit percentage at the trigger level. -/
def trailEvent (side : Side) (entryPrice : ℚ) (candle : Candle)
    (lvl : TriggerLevel) : TrailingStopUpdate :=
  ⟨lvl.stopLoss, candle.openTime,
   (match side with
    | Side.LONG => TrailType.TRAIL_UP
    | Side.SHORT => TrailType.TRAIL_DOWN),
   (match side with
    | Side.LONG => candle.high
    | Side.SHORT => candle.low),
   (match side with
    | Side.LONG => (1 : ℚ)
    | Side.SHORT => (-1 : ℚ)) * (lvl.trigger - entryPrice) / entryPrice * 100,
   some candle⟩

/-- The inner `while` of the first variant's `checkTradeOutcome`, phrased on
the ladder suffix that starts at the current trigger index: as long as the
next pending level is crossed, promote the active stop to that level's
`stopLoss`, push a trail event, and advance the index. -/
def runTriggers (side : Side) (entryPrice : ℚ) (candle : Candle) :
    List TriggerLevel → ℚ → List TrailingStopUpdate → ℕ →
    ℚ × List TrailingStopUpdate × ℕ
  | [], stop, hist, idx => (stop, hist, idx)
  | lvl :: rest, stop, hist, idx =>
    if crossesTrigger side candle lvl.trigger then
      runTriggers side entryPrice candle rest lvl.stopLoss
        (hist ++ [trailEvent side entryPrice candle lvl]) (idx + 1)
    else (stop, hist, idx)

/-- `createTradeExit`: append the `HIT` event and package the exit at the
active stop price. -/
def createTradeExit (candle : Candle) (stopLossPrice : ℚ) (candlesUntilExit : ℕ)
    (trailingHistory : List TrailingStopUpdate) : TradeExit :=
  ⟨stopLossPrice, candle.openTime, candlesUntilExit,
   trailingHistory ++ [⟨stopLossPrice, candle.openTime, TrailType.HIT, stopLossPrice, 0, none⟩]⟩

/-- The `INITIAL` trailing-history entry of `checkTradeOutcome`. -/
def initialHistory (cs : List Candle) (startIndex : ℕ) (entry : TradeEntry)
    (stop0 : ℚ) : List TrailingStopUpdate :=
  [⟨stop0, (cs.getD startIndex default).openTime, TrailType.INITIAL, entry.price, 0, none⟩]

/-- The per-candle loop of the first variant's `checkTradeOutcome`: fuel
counts remaining iterations of `for i = 1..maxLookForwardCandles`; `none`
when the candle store ends or the horizon is exhausted; the stop-hit check
runs before the trigger `while` on every candle. -/
def simulate (cs : List Candle) (startIndex : ℕ) (side : Side) (entryPrice : ℚ)
    (levels : List TriggerLevel) :
    ℕ → ℕ → ℚ → ℕ → List TrailingStopUpdate → Option TradeExit
  | 0, _, _, _, _ => none
  | Nat.succ fuel, i, stop, idx, hist =>
    match cs.get? (startIndex + i) with
    | none => none
    | some candle =>
      if stopHit side candle stop then
        some (createTradeExit candle stop i hist)
      else
        match runTriggers side entryPrice candle (levels.drop idx) stop hist idx with
        | (stop', hist', idx') =>
          simulate cs startIndex side entryPrice levels fuel (i + 1) stop' idx' hist'

/-- First variant's `checkTradeOutcome`: build the ladder, start with
`currentStopLoss = triggerLevels[0].stopLoss`, `currentTriggerIndex = 1`,
the `INITIAL` history entry, and run the per-candle loop. -/
def checkTradeOutcome (M H : ℕ) (cs : List Candle) (startIndex : ℕ)
    (entry : TradeEntry) : Option TradeExit :=
  simulate cs startIndex entry.side entry.price
    (calculateTriggerLevels M entry.price entry.side entry.dynamicThreshold)
    H 1
    ((calculateTriggerLevels M entry.price entry.side entry.dynamicThreshold).getD 0 default).stopLoss
    1
    (initialHistory cs startIndex entry
      ((calculateTriggerLevels M entry.price entry.side entry.dynamicThreshold).getD 0 default).stopLoss)

/-- `calculatePnL`: `(pnl, pnl_percentage)` for a fixed-unit position. -/
def calculatePnL (entry exitPrice : ℚ) (side : Side) (size : ℚ) : ℚ × ℚ :=
  (match side with
   | Side.LONG => exitPrice - entry
   | Side.SHORT => entry - exitPrice,
   (match side with
    | Side.LONG => exitPrice - entry
    | Side.SHORT => entry - exitPrice) / entry * 100)

/-- `calculateTradeSize`: `(balance * positionSizePercent / 100) / entryPrice`. -/
def calculateTradeSize (positionSizePercent balance entryPrice : ℚ) : ℚ :=
  balance * positionSizePercent / 100 / entryPrice

/-- State effect of the first variant's `processCandle` on the run state:
legend test, threshold-crossing scan, trailing-stop simulation, and — only
when an exit was found — balance update and record pushes (`updateBalance`
and `storeMatchingCandle`). -/
def processCandleState (N : ℕ) (k p : ℚ) (M H : ℕ) (cs : List Candle)
    (st : RunState) (currentCandle : Candle) (lookbackCandles : List Candle)
    (currentIndex : ℕ) : RunState :=
  if isLegendV1 N k lookbackCandles currentCandle then
    match checkThresholdCrossing H cs currentIndex
        (upThreshold currentCandle (dynamicThresholdV1 N k lookbackCandles))
        (downThreshold currentCandle (dynamicThresholdV1 N k lookbackCandles)) with
    | none => st
    | some tc =>
      match checkTradeOutcome M H cs (currentIndex + tc.candles_until_cross)
          ⟨tc.entry_price, tc.direction,
           calculateTradeSize p st.currentBalance tc.entry_price,
           dynamicThresholdV1 N k lookbackCandles⟩ with
      | none => st
      | some ex =>
        ⟨st.currentBalance + (calculatePnL tc.entry_price ex.price tc.direction 1).1,
         st.matchingCandles ++
           [⟨currentCandle.openTime, currentDiffV1 currentCandle,
             dynamicThresholdV1 N k lookbackCandles,
             mean ((lastN N lookbackCandles).map windowDiffV1),
             tc.direction, tc.entry_price,
             (calculatePnL tc.entry_price ex.price tc.direction 1).1,
             st.currentBalance + (calculatePnL tc.entry_price ex.price tc.direction 1).1⟩],
         st.balanceHistory ++
           [⟨ex.time,
             st.currentBalance + (calculatePnL tc.entry_price ex.price tc.direction 1).1,
             (calculatePnL tc.entry_price ex.price tc.direction 1).1⟩]⟩
  else st

/-- Indices flagged as legends by the first variant's `findMatchingCandles`
loop: `i` ranges over `N+10 .. cs.length - 1`, the lookback slice is
`cs.slice(i - (N+10), i)`. -/
def legendIndices (N : ℕ) (k : ℚ) (cs : List Candle) : List ℕ :=
  (List.range' (N + 10) (cs.length - (N + 10))).filter (fun i =>
    isLegendV1 N k ((cs.drop (i - (N + 10))).take (N + 10)) (cs.getD i default))

/-- Whether a history event is a trail promotion (`TRAIL_UP`/`TRAIL_DOWN`). -/
def isTrailEvent (u : TrailingStopUpdate) : Bool :=
  match u.type with
  | TrailType.TRAIL_UP => true
  | TrailType.TRAIL_DOWN => true
  | _ => false

/-- Number of trail-promotion events in a trailing history. -/
def countTrails (l : List TrailingStopUpdate) : ℕ := l.countP isTrailEvent

/-- Sign of a side: `+1` for LONG, `-1` for SHORT. -/
def sideSign (side : Side) : ℚ :=
  match side with
  | Side.LONG => 1
  | Side.SHORT => -1

/-- The active stop price while the next pending trigger ordinal is `j`:
`entry + sign*(j-2)*delta` (so `j = 1` gives the initial stop
`entry - sign*delta`, and crossing trigger `j` promotes to `stopVal (j+1)`). -/
def stopVal (side : Side) (entryPrice delta : ℚ) (j : ℕ) : ℚ :=
  entryPrice + sideSign side * delta * ((j : ℚ) - 2)

/-- A degenerate candle with `open = close` (zero movement). -/
def flatCandle : Candle := ⟨0, 100, 100, 100, 100, 0, 0⟩

/-- A window of ten zero-movement candles (`avgDiff = 0`). -/
def flatWindow : List Candle := List.replicate 10 flatCandle

/-- Candle store for the LONG-entry-at-189 scenario: the entry candle, a
candle with `high = 199, low = 190`, then a candle with `low = 188`. -/
def c3candles : List Candle :=
  [⟨0, 189, 189, 189, 189, 0, 0⟩, ⟨1, 190, 199, 190, 198, 0, 1⟩,
   ⟨2, 190, 191, 188, 189, 0, 2⟩]

/-- Candle store for an abandoned trade: a 1%-movement lookback candle, a
10%-movement legend candle, and one crossing candle after which the store
ends, so the simulation runs off the end without a stop-hit. -/
def c5candles : List Candle :=
  [⟨0, 100, 101, 99, 101, 0, 0⟩, ⟨1, 100, 110, 100, 110, 0, 1⟩,
   ⟨2, 111, 112, 110, 112, 0, 2⟩]

/-- Candle store with one trigger promotion and then a stop-hit exit
(LONG at 100 with a 10% threshold). -/
def c10candles : List Candle :=
  [⟨0, 100, 100, 100, 100, 0, 0⟩, ⟨1, 100, 115, 95, 110, 0, 1⟩,
   ⟨2, 100, 101, 99, 100, 0, 2⟩]

/-- A candle whose range crosses both the active stop 90 and the trigger 110. -/
def bothCrossCandle : Candle := ⟨1, 100, 115, 85, 100, 0, 1⟩

/-- Store placing `bothCrossCandle` at offset 1 after the entry candle. -/
def w1candles : List Candle := [⟨0, 100, 100, 100, 100, 0, 0⟩, bothCrossCandle]

/-- A large-range candle crossing the triggers 110 and 120 but not the stop 90. -/
def gapCandle : Candle := ⟨1, 100, 125, 95, 120, 0, 1⟩

/-- Store placing `gapCandle` at offset 1 after the entry candle. -/
def w2candles : List Candle := [⟨0, 100, 100, 100, 100, 0, 0⟩, gapCandle]

/-- Store where the candle at offset 1 crosses neither level 110/90 and the
candle at offset 2 crosses the upward level 110. -/
def c6candles : List Candle :=
  [⟨0, 100, 100, 100, 100, 0, 0⟩, ⟨1, 100, 104, 97, 100, 0, 1⟩,
   ⟨2, 100, 111, 99, 110, 0, 2⟩]

/-- Thirteen identical 1%-movement candles (enough for the `N + 10` warm-up
with `N = 1`). -/
def c9candles : List Candle := List.replicate 13 ⟨0, 100, 101, 99, 101, 0, 0⟩

/-- Dropping `i` elements of `range' s n` leaves `range' (s+i) (n-i)`. -/
lemma range'_drop : ∀ (i n s : ℕ), (List.range' s n).drop i = List.range' (s + i) (n - i) := by
  intro i
  induction i with
  | zero => intro n s; simp
  | succ ii ih =>
    intro n s
    cases n with
    | zero => simp
    | succ nn =>
      rw [List.range'_succ, List.drop_succ_cons, ih]
      congr 1 <;> omega

/-- The last element of a mapped nonempty `range'` is the image of `s + n`. -/
lemma getLastD_map_range' {α : Type} (g : ℕ → α) :
    ∀ (n s : ℕ) (d : α), ((List.range' s (n + 1)).map g).getLastD d = g (s + n) := by
  intro n
  induction n with
  | zero => intro s d; simp
  | succ nn ih =>
    intro s d
    rw [List.range'_succ, List.map_cons, List.getLastD_cons, ih]
    congr 1
    omega

/-- Shifting the argument of the mapped function shifts the `range'` start. -/
lemma map_shift_range' {α : Type} (g : ℕ → α) :
    ∀ (n s : ℕ), (List.range' s n).map (fun j => g (j + 1)) = (List.range' (s + 1) n).map g := by
  intro n
  induction n with
  | zero => intro s; simp
  | succ nn ih =>
    intro s
    rw [List.range'_succ, List.range'_succ, List.map_cons, List.map_cons, ih]

/-- `mean` of a list of nonnegative rationals is nonnegative. -/
lemma mean_nonneg (l : List ℚ) (h : ∀ x ∈ l, 0 ≤ x) : 0 ≤ mean l := by
  unfold mean
  exact div_nonneg (List.sum_nonneg h) (by positivity)

/-- The average window movement used by the dynamic threshold is nonnegative. -/
lemma avg_nonneg (N : ℕ) (lb : List Candle) :
    0 ≤ mean ((lastN N lb).map windowDiffV1) := by
  apply mean_nonneg
  intro x hx
  rw [List.mem_map] at hx
  obtain ⟨c, _, rfl⟩ := hx
  unfold windowDiffV1
  positivity

/-- Ladder lookup, first variant: entry `j ≥ 1` is `triggerLevelAt` at `j`. -/
lemma levels_get (M : ℕ) (P t : ℚ) (side : Side) (j : ℕ) (h1 : 1 ≤ j) (h2 : j ≤ M) :
    (calculateTriggerLevels M P side t).get? j
      = some (triggerLevelAt side P (P * (t / 100)) j) := by
  obtain ⟨jj, rfl⟩ : ∃ jj, j = jj + 1 := ⟨j - 1, by omega⟩
  unfold calculateTriggerLevels
  rw [List.get?_cons_succ, List.get?_map, List.get?_range' 1 1 (show jj < M by omega)]
  have h : 1 + 1 * jj = jj + 1 := by omega
  rw [h]
  rfl

/-- Ladder lookup, second variant: index `j < 20` holds `triggerLevelV2At`
at ordinal `j + 1`. -/
lemma levelsV2_get (P t : ℚ) (side : Side) (j : ℕ) (h : j < 20) :
    (calculateTriggerLevelsV2 P side t).get? j
      = some (triggerLevelV2At side P t (j + 1)) := by
  unfold calculateTriggerLevelsV2
  rw [List.get?_map, List.get?_range' 1 1 h]
  have he : 1 + 1 * j = j + 1 := by omega
  rw [he]
  rfl

/-- The ladder suffix from index `idx ≥ 1` is a mapped `range'`. -/
lemma levels_drop (M : ℕ) (P t : ℚ) (side : Side) (idx : ℕ) (h : 1 ≤ idx) :
    (calculateTriggerLevels M P side t).drop idx
      = (List.range' idx (M - (idx - 1))).map (triggerLevelAt side P (P * (t / 100))) := by
  obtain ⟨ii, rfl⟩ : ∃ ii, idx = ii + 1 := ⟨idx - 1, by omega⟩
  unfold calculateTriggerLevels
  rw [List.drop_succ_cons, ← List.map_drop, range'_drop]
  have e1 : 1 + ii = ii + 1 := Nat.add_comm 1 ii
  have e2 : M - ii = M - (ii + 1 - 1) := by omega
  rw [e1, e2]

/-- Crossing ladder level `j` promotes the active stop to `stopVal (j+1)`. -/
lemma triggerLevelAt_stopLoss (side : Side) (P d : ℚ) (j : ℕ) :
    (triggerLevelAt side P d j).stopLoss = stopVal side P d (j + 1) := by
  cases side <;> simp [triggerLevelAt, stopVal, sideSign] <;> push_cast <;> ring

/-- The first variant's initial stop is `stopVal` at ordinal 1. -/
lemma initial_stopLoss (M : ℕ) (P t : ℚ) (side : Side) :
    ((calculateTriggerLevels M P side t).getD 0 default).stopLoss
      = stopVal side P (P * (t / 100)) 1 := by
  cases side <;>
    simp [calculateTriggerLevels, initialTriggerLevel, stopVal, sideSign] <;> ring

/-- The trigger `while`: a run over `crossed ++ rest` where every level of
`crossed` is crossed and the head of `rest` is not promotes through exactly
the `crossed` levels, in order. -/
lemma runTriggers_crossed (side : Side) (P : ℚ) (c : Candle)
    (crossed : List TriggerLevel) :
    ∀ (rest : List TriggerLevel) (stop : ℚ) (hist : List TrailingStopUpdate) (idx : ℕ),
    (∀ l ∈ crossed, crossesTrigger side c l.trigger = true) →
    (∀ l, rest.head? = some l → crossesTrigger side c l.trigger = false) →
    runTriggers side P c (crossed ++ rest) stop hist idx
      = ((crossed.map TriggerLevel.stopLoss).getLastD stop,
         hist ++ crossed.map (trailEvent side P c), idx + crossed.length) := by
  induction crossed with
  | nil =>
    intro rest stop hist idx _ hrest
    cases rest with
    | nil => simp [runTriggers]
    | cons l r =>
      rw [List.nil_append]
      simp [runTriggers, hrest l rfl]
  | cons lvl cr ih =>
    intro rest stop hist idx hcross hrest
    rw [List.cons_append]
    simp only [runTriggers, hcross lvl (List.mem_cons_self _ _), if_true]
    rw [ih rest lvl.stopLoss (hist ++ [trailEvent side P c lvl]) (idx + 1)
      (fun l hl => hcross l (List.mem_cons_of_mem _ hl)) hrest]
    simp only [List.map_cons, List.getLastD_cons, List.length_cons, Prod.mk.injEq]
    refine ⟨trivial, ?_, by omega⟩
    rw [List.append_assoc]
    rfl

/-- The trigger `while` on a mapped `range'` suffix promotes through some
prefix `range' s n` of it. -/
lemma runTriggers_range (side : Side) (P : ℚ) (c : Candle) (mk : ℕ → TriggerLevel) :
    ∀ (cnt s : ℕ) (stop : ℚ) (hist : List TrailingStopUpdate) (idx : ℕ),
    ∃ n, n ≤ cnt ∧
      runTriggers side P c ((List.range' s cnt).map mk) stop hist idx
        = ((((List.range' s n).map mk).map TriggerLevel.stopLoss).getLastD stop,
           hist ++ ((List.range' s n).map mk).map (trailEvent side P c), idx + n) := by
  intro cnt
  induction cnt with
  | zero =>
    intro s stop hist idx
    exact ⟨0, le_rfl, by simp [runTriggers]⟩
  | succ cn ih =>
    intro s stop hist idx
    rw [List.range'_succ, List.map_cons]
    by_cases hcr : crossesTrigger side c (mk s).trigger = true
    · obtain ⟨n', hn', heq⟩ :=
        ih (s + 1) (mk s).stopLoss (hist ++ [trailEvent side P c (mk s)]) (idx + 1)
      refine ⟨n' + 1, by omega, ?_⟩
      simp only [runTriggers, hcr, if_true]
      rw [heq, List.range'_succ, List.map_cons, List.map_cons, List.getLastD_cons,
        List.map_cons]
      simp only [Prod.mk.injEq]
      refine ⟨trivial, ?_, by omega⟩
      rw [List.append_assoc]
      rfl
    · refine ⟨0, Nat.zero_le _, ?_⟩
      simp [runTriggers, hcr]

/-- The bounded forward scan returns the decision of the first in-range
crossing candle, with the upward test taking priority. -/
lemma crossingSearch_first (cs : List Candle) (start : ℕ) (up down : ℚ)
    (cj : Candle) (j : ℕ) (hj : cs.get? (start + j) = some cj) :
    ∀ (fuel i : ℕ), i ≤ j → j < i + fuel →
    (∀ j', i ≤ j' → j' < j →
      ∃ c', cs.get? (start + j') = some c' ∧ ¬(up ≤ c'.high) ∧ ¬(c'.low ≤ down)) →
    (up ≤ cj.high ∨ cj.low ≤ down) →
    crossingSearch cs start up down fuel i
      = if up ≤ cj.high then some ⟨Side.LONG, up, j⟩ else some ⟨Side.SHORT, down, j⟩ := by
  intro fuel
  induction fuel with
  | zero => intro i hi hlt _ _; omega
  | succ f ih =>
    intro i hi hlt hmin hcr
    by_cases hij : i = j
    · subst hij
      simp only [crossingSearch]
      rw [hj]
      by_cases hup : up ≤ cj.high
      · simp [hup]
      · have hdn : cj.low ≤ down := hcr.resolve_left hup
        simp [hup, hdn]
    · have hij' : i < j := lt_of_le_of_ne hi hij
      obtain ⟨c', hc', hnu, hnd⟩ := hmin i le_rfl hij'
      simp only [crossingSearch, hc']
      rw [if_neg hnu, if_neg hnd]
      exact ih (i + 1) (by omega) (by omega) (fun j' ha hb => hmin j' (by omega) hb) hcr

/-- A chain relation holding between consecutive images of `g` holds along
any mapped `range'`. -/
lemma chain'_range'_map (g : ℕ → ℚ) (R : ℚ → ℚ → Prop)
    (hR : ∀ j : ℕ, R (g j) (g (j + 1))) :
    ∀ (n s : ℕ), List.Chain' R ((List.range' s n).map g) := by
  intro n
  induction n with
  | zero => intro s; simp
  | succ nn ih =>
    intro s
    rw [List.range'_succ, List.map_cons]
    cases nn with
    | zero => simp
    | succ n2 =>
      have htail := ih (s + 1)
      rw [List.range'_succ, List.map_cons] at htail ⊢
      rw [List.chain'_cons]
      exact ⟨hR s, htail⟩

/-- Invariant of the first variant's trade-outcome loop: starting from
pending trigger ordinal `idx` with the matching active stop and history, a
successful run exits at `stopVal m` for some `m ≥ idx`, and the pre-`HIT`
history prices are exactly the active-stop sequence `stopVal 1 .. stopVal m`. -/
lemma simulate_price_trace (M : ℕ) (cs : List Candle) (start : ℕ) (side : Side)
    (P t : ℚ) :
    ∀ (fuel : ℕ), ∀ (i idx : ℕ) (stop : ℚ) (hist : List TrailingStopUpdate)
      (ex : TradeExit),
    1 ≤ idx →
    stop = stopVal side P (P * (t / 100)) idx →
    hist.map TrailingStopUpdate.price
      = (List.range' 1 idx).map (stopVal side P (P * (t / 100))) →
    simulate cs start side P (calculateTriggerLevels M P side t) fuel i stop idx hist
      = some ex →
    ∃ m, idx ≤ m ∧
      ex.trailing_stops.dropLast.map TrailingStopUpdate.price
        = (List.range' 1 m).map (stopVal side P (P * (t / 100))) ∧
      ex.price = stopVal side P (P * (t / 100)) m := by
  intro fuel
  induction fuel with
  | zero =>
    intro i idx stop hist ex _ _ _ hsim
    exact absurd hsim (by simp [simulate])
  | succ f ih =>
    intro i idx stop hist ex hidx hstop hhist hsim
    simp only [simulate] at hsim
    split at hsim
    next => exact absurd hsim (by simp)
    next candle hget =>
      cases hsh : stopHit side candle stop with
      | true =>
        rw [hsh, if_pos rfl] at hsim
        have hex := Option.some.inj hsim
        subst hex
        refine ⟨idx, le_rfl, ?_, hstop⟩
        simp only [createTradeExit, List.dropLast_concat]
        exact hhist
      | false =>
        rw [hsh, if_neg Bool.false_ne_true] at hsim
        rw [levels_drop M P t side idx hidx] at hsim
        obtain ⟨n, hn, heq⟩ :=
          runTriggers_range side P candle (triggerLevelAt side P (P * (t / 100)))
            (M - (idx - 1)) idx stop hist idx
        rw [heq] at hsim
        dsimp only at hsim
        have hstop' :
            ((((List.range' idx n).map (triggerLevelAt side P (P * (t / 100)))).map
              TriggerLevel.stopLoss).getLastD stop)
              = stopVal side P (P * (t / 100)) (idx + n) := by
          cases n with
          | zero => simpa using hstop
          | succ nn =>
            rw [List.map_map, getLastD_map_range']
            show (triggerLevelAt side P (P * (t / 100)) (idx + nn)).stopLoss = _
            rw [triggerLevelAt_stopLoss]
            congr 1
        have hhist' :
            (hist ++ ((List.range' idx n).map
                (triggerLevelAt side P (P * (t / 100)))).map
                (trailEvent side P candle)).map TrailingStopUpdate.price
              = (List.range' 1 (idx + n)).map (stopVal side P (P * (t / 100))) := by
          have harr : List.range' 1 (idx + n) = List.range' 1 idx ++ List.range' (idx + 1) n := by
            have h := List.range'_append 1 idx n 1
            have e1 : 1 + 1 * idx = idx + 1 := by omega
            rw [e1] at h
            rw [Nat.add_comm idx n, ← h]
          rw [List.map_append, hhist, harr, List.map_append]
          congr 1
          rw [← map_shift_range' (stopVal side P (P * (t / 100))) n idx,
            List.map_map, List.map_map]
          apply List.map_congr_left
          intro j _
          show (trailEvent side P candle (triggerLevelAt side P (P * (t / 100)) j)).price = _
          rw [show (trailEvent side P candle
                (triggerLevelAt side P (P * (t / 100)) j)).price
              = (triggerLevelAt side P (P * (t / 100)) j).stopLoss from rfl,
            triggerLevelAt_stopLoss]
        rw [hstop'] at hsim
        obtain ⟨m, hm, hdrop, hpr⟩ :=
          ih (i + 1) (idx + n) _ _ ex (by omega) rfl hhist' hsim
        exact ⟨m, by omega, hdrop, hpr⟩

/-- Closed form of the first-variant ladder's trigger price at index `j ≤ M`. -/
lemma levels_trigger (M : ℕ) (P t : ℚ) (side : Side) (j : ℕ) (h2 : j ≤ M) :
    ((calculateTriggerLevels M P side t).getD j default).trigger
      = P + sideSign side * (P * (t / 100)) * (j : ℚ) := by
  cases j with
  | zero =>
    have h0 : (calculateTriggerLevels M P side t).getD 0 default
        = initialTriggerLevel side P (P * (t / 100)) := rfl
    rw [h0]
    cases side <;> simp [initialTriggerLevel, sideSign]
  | succ jj =>
    have hj : (calculateTriggerLevels M P side t).getD (jj + 1) default
        = triggerLevelAt side P (P * (t / 100)) (jj + 1) := by
      rw [List.getD_eq_get?, levels_get M P t side (jj + 1) (by omega) h2]
      rfl
    rw [hj]
    cases side <;> simp [triggerLevelAt, sideSign] <;> push_cast <;> ring

/-- Closed form of the first-variant ladder's stop price at index `1 ≤ j ≤ M`. -/
lemma levels_stop (M : ℕ) (P t : ℚ) (side : Side) (j : ℕ) (h1 : 1 ≤ j) (h2 : j ≤ M) :
    ((calculateTriggerLevels M P side t).getD j default).stopLoss
      = P + sideSign side * (P * (t / 100)) * ((j : ℚ) - 1) := by
  cases j with
  | zero => omega
  | succ jj =>
    have hj : (calculateTriggerLevels M P side t).getD (jj + 1) default
        = triggerLevelAt side P (P * (t / 100)) (jj + 1) := by
      rw [List.getD_eq_get?, levels_get M P t side (jj + 1) (by omega) h2]
      rfl
    rw [hj]
    cases side <;> simp [triggerLevelAt, sideSign] <;> push_cast <;> ring

/-- Second-variant ladder lookup at display index `j - 1` for ordinal `j`. -/
lemma levelsV2_fields (P t : ℚ) (side : Side) (j : ℕ) (h1 : 1 ≤ j) (h2 : j ≤ 20) :
    (calculateTriggerLevelsV2 P side t).getD (j - 1) default
      = triggerLevelV2At side P t j := by
  rw [List.getD_eq_get?, levelsV2_get P t side (j - 1) (by omega)]
  have he : (j - 1) + 1 = j := by omega
  rw [he]
  rfl

/-- Claim C7: for every LONG entry price `P` and dynamic threshold, the
generated trigger ladder satisfies `stop_j = trigger_(j-1)` for every
`j ≥ 1` (with `trigger_0 = P`), and `trigger_j - trigger_(j-1) = delta`
with `delta = P * dynamicThreshold / 100` fixed at generation time; the
mirrored equations (delta negated) hold for SHORT. -/
theorem claim_C7 (M : ℕ) (P t : ℚ) (side : Side) (j : ℕ) (h1 : 1 ≤ j) (h2 : j ≤ M) :
    ((calculateTriggerLevels M P side t).getD j default).stopLoss
      = ((calculateTriggerLevels M P side t).getD (j - 1) default).trigger ∧
    ((calculateTriggerLevels M P side t).getD j default).trigger
      - ((calculateTriggerLevels M P side t).getD (j - 1) default).trigger
      = sideSign side * (P * (t / 100)) ∧
    ((calculateTriggerLevels M P side t).getD 0 default).trigger = P := by
  have hc : ((j - 1 : ℕ) : ℚ) = (j : ℚ) - 1 := by
    push_cast [Nat.cast_sub h1]
    ring
  refine ⟨?_, ?_, ?_⟩
  · rw [levels_stop M P t side j h1 h2, levels_trigger M P t side (j - 1) (by omega), hc]
  · rw [levels_trigger M P t side j h2, levels_trigger M P t side (j - 1) (by omega), hc]
    ring
  · rw [levels_trigger M P t side 0 (Nat.zero_le M)]
    push_cast
    ring

/-- Witness for C7 at `M = 3`, `P = 100`, `t = 10`, LONG, `j = 2`. -/
theorem claim_C7_witness :
    ((calculateTriggerLevels 3 100 Side.LONG 10).getD 2 default).stopLoss
      = ((calculateTriggerLevels 3 100 Side.LONG 10).getD 1 default).trigger ∧
    ((calculateTriggerLevels 3 100 Side.LONG 10).getD 2 default).trigger
      - ((calculateTriggerLevels 3 100 Side.LONG 10).getD 1 default).trigger
      = sideSign Side.LONG * ((100 : ℚ) * (10 / 100)) ∧
    ((calculateTriggerLevels 3 100 Side.LONG 10).getD 0 default).trigger = 100 :=
  claim_C7 3 100 10 Side.LONG 2 (by norm_num) (by norm_num)

/-- Claim C8: under exact arithmetic the two ladder implementations agree:
for `j = 1..20` the fixed-delta levels of the first variant (shifted by its
extra index-0 entry) equal the percentage-form levels of the second, and
the two initial stops coincide. -/
theorem claim_C8 (P t : ℚ) (side : Side) (j : ℕ) (h1 : 1 ≤ j) (h2 : j ≤ 20) :
    ((calculateTriggerLevels 20 P side t).getD j default).trigger
      = ((calculateTriggerLevelsV2 P side t).getD (j - 1) default).trigger ∧
    ((calculateTriggerLevels 20 P side t).getD j default).stopLoss
      = ((calculateTriggerLevelsV2 P side t).getD (j - 1) default).stopLoss ∧
    ((calculateTriggerLevels 20 P side t).getD 0 default).stopLoss
      = initialStopV2 P side t := by
  refine ⟨?_, ?_, ?_⟩
  · rw [levels_trigger 20 P t side j h2, levelsV2_fields P t side j h1 h2]
    cases side <;> simp [triggerLevelV2At, sideSign] <;> push_cast <;> ring
  · rw [levels_stop 20 P t side j h1 h2, levelsV2_fields P t side j h1 h2]
    cases side <;> simp [triggerLevelV2At, sideSign] <;>
      push_cast [Nat.cast_sub h1] <;> ring
  · rw [initial_stopLoss]
    cases side <;> simp [initialStopV2, stopVal, sideSign] <;> ring

/-- Witness for C8 at `P = 189`, `t = 5`, SHORT, `j = 3`. -/
theorem claim_C8_witness :
    ((calculateTriggerLevels 20 189 Side.SHORT 5).getD 3 default).trigger
      = ((calculateTriggerLevelsV2 189 Side.SHORT 5).getD 2 default).trigger ∧
    ((calculateTriggerLevels 20 189 Side.SHORT 5).getD 3 default).stopLoss
      = ((calculateTriggerLevelsV2 189 Side.SHORT 5).getD 2 default).stopLoss ∧
    ((calculateTriggerLevels 20 189 Side.SHORT 5).getD 0 default).stopLoss
      = initialStopV2 189 Side.SHORT 5 :=
  claim_C8 189 5 Side.SHORT 3 (by norm_num) (by norm_num)

/-- Claim C9: legend detection is antitone in the threshold multiplier: with
the same lookback length, every index flagged under `k2` is flagged under
any `k1 ≤ k2`, so the number of detected legends never increases. -/
theorem claim_C9 (N : ℕ) (k1 k2 : ℚ) (cs : List Candle) (hk : k1 ≤ k2) :
    (∀ i ∈ legendIndices N k2 cs, i ∈ legendIndices N k1 cs) ∧
    (legendIndices N k2 cs).length ≤ (legendIndices N k1 cs).length := by
  have key : ∀ (lb : List Candle) (c : Candle),
      isLegendV1 N k2 lb c = true → isLegendV1 N k1 lb c = true := by
    intro lb c h
    unfold isLegendV1 dynamicThresholdV1 at h ⊢
    rw [decide_eq_true_iff] at h ⊢
    calc k1 * mean ((lastN N lb).map windowDiffV1)
        ≤ k2 * mean ((lastN N lb).map windowDiffV1) :=
          mul_le_mul_of_nonneg_right hk (avg_nonneg N lb)
      _ ≤ currentDiffV1 c := h
  constructor
  · intro i hi
    unfold legendIndices at hi ⊢
    rw [List.mem_filter] at hi ⊢
    exact ⟨hi.1, key _ _ hi.2⟩
  · unfold legendIndices
    rw [← List.countP_eq_length_filter, ← List.countP_eq_length_filter]
    exact List.countP_mono_left (fun i _ h => key _ _ h)

/-- Witness for C9: `k1 = 1 ≤ k2 = 2` on thirteen 1%-movement candles. -/
theorem claim_C9_witness :
    (legendIndices 1 2 c9candles).length ≤ (legendIndices 1 1 c9candles).length :=
  (claim_C9 1 1 2 c9candles (by norm_num)).2

/-- Counterexample to C4 as stated: under a zero window threshold the first
variant's `>=` comparator flags a candle whose own movement is `0`
(`open = close`), so "legend iff movement strictly greater than 0" fails on
that variant. -/
theorem claim_C4_cex :
    dynamicThresholdV1 10 10 flatWindow = 0 ∧
    currentDiffV1 flatCandle = 0 ∧
    isLegendV1 10 10 flatWindow flatCandle = true := by
  norm_num [dynamicThresholdV1, currentDiffV1, isLegendV1, mean, lastN, windowDiffV1, flatWindow, flatCandle, List.replicate]

/-- Claim C4 (amended): when the computed dynamic threshold is `0`, the
strict-comparator variant flags a candle iff its movement is strictly
positive (so `open = close` does not qualify), while the `>=` variant flags
every candle with nonnegative movement — including `open = close`; neither
case faults. -/
theorem claim_C4 (N : ℕ) (k : ℚ) (w : List Candle) (c : Candle)
    (h : dynamicThresholdV1 N k w = 0) :
    (isLegendV2 N k w c = true ↔ 0 < currentDiffV1 c) ∧
    (0 ≤ currentDiffV1 c → isLegendV1 N k w c = true) ∧
    (c.openPrice = c.close →
      currentDiffV1 c = 0 ∧ isLegendV2 N k w c = false ∧ isLegendV1 N k w c = true) := by
  have hdiff : c.openPrice = c.close → currentDiffV1 c = 0 := by
    intro heq
    unfold currentDiffV1
    rw [heq]
    simp
  refine ⟨?_, ?_, ?_⟩
  · unfold isLegendV2
    rw [h]
    simp
  · intro hd
    unfold isLegendV1
    rw [h]
    simpa using hd
  · intro heq
    refine ⟨hdiff heq, ?_, ?_⟩
    · unfold isLegendV2
      rw [h, hdiff heq]
      simp
    · unfold isLegendV1
      rw [h, hdiff heq]
      simp

/-- Witness for C4 on the all-flat window and a flat candle. -/
theorem claim_C4_witness :
    currentDiffV1 flatCandle = 0 ∧
    isLegendV2 10 10 flatWindow flatCandle = false ∧
    isLegendV1 10 10 flatWindow flatCandle = true :=
  (claim_C4 10 10 flatWindow flatCandle (by norm_num [dynamicThresholdV1, currentDiffV1, mean, lastN, windowDiffV1, flatWindow, flatCandle, List.replicate])).2.2 (by decide)

/-- Claim C1: on every candle of the trade-outcome loop the stop-hit check
runs before the trigger check: a candle crossing both the active stop and
the next pending trigger exits the simulation at the active stop price and
records no trail promotion on that candle or any later one of the trade. -/
theorem claim_C1 (cs : List Candle) (start : ℕ) (side : Side) (P : ℚ)
    (levels : List TriggerLevel) (fuel i idx : ℕ) (stop : ℚ)
    (hist : List TrailingStopUpdate) (candle : Candle) (nextTrigger : TriggerLevel)
    (hc : cs.get? (start + i) = some candle)
    (hstop : stopHit side candle stop = true)
    (hnext : (levels.drop idx).head? = some nextTrigger)
    (htrig : crossesTrigger side candle nextTrigger.trigger = true) :
    simulate cs start side P levels (fuel + 1) i stop idx hist
      = some (createTradeExit candle stop i hist) ∧
    (createTradeExit candle stop i hist).price = stop ∧
    countTrails (createTradeExit candle stop i hist).trailing_stops = countTrails hist := by
  refine ⟨?_, rfl, ?_⟩
  · simp only [simulate, hc]
    rw [hstop, if_pos rfl]
  · simp [countTrails, createTradeExit, List.countP_append, List.countP_cons,
      isTrailEvent]

set_option maxRecDepth 100000 in
/-- Witness for C1: both-crossing candle at offset 1, LONG at 100 with
active stop 90 and pending trigger 110. -/
theorem claim_C1_witness :
    simulate w1candles 0 Side.LONG 100 (calculateTriggerLevels 2 100 Side.LONG 10)
        1 1 90 1 []
      = some (createTradeExit bothCrossCandle 90 1 []) ∧
    (createTradeExit bothCrossCandle 90 1 []).price = 90 ∧
    countTrails (createTradeExit bothCrossCandle 90 1 []).trailing_stops
      = countTrails [] :=
  claim_C1 w1candles 0 Side.LONG 100 (calculateTriggerLevels 2 100 Side.LONG 10)
    0 1 1 90 [] bothCrossCandle ⟨110, 100, false, false⟩
    (by decide) (by decide)
    (by norm_num [calculateTriggerLevels, triggerLevelAt, initialTriggerLevel, List.range']) (by decide)

/-- Claim C2: on a candle that does not hit the active stop and whose range
crosses the next `k ≥ 2` consecutive pending triggers, the trigger `while`
applies all `k` promotions in ordinal order within that one candle — the
history gains the `k` trail events in order, the active stop ends at the
stop level of the highest crossed trigger — before the loop moves to the
next candle. -/
theorem claim_C2 (cs : List Candle) (start : ℕ) (side : Side) (P : ℚ)
    (levels : List TriggerLevel) (fuel i idx : ℕ) (stop : ℚ)
    (hist : List TrailingStopUpdate) (candle : Candle)
    (crossed rest : List TriggerLevel) (k : ℕ)
    (hc : cs.get? (start + i) = some candle)
    (hnostop : stopHit side candle stop = false)
    (hsplit : levels.drop idx = crossed ++ rest)
    (hk : crossed.length = k) (hk2 : 2 ≤ k)
    (hcross : ∀ l ∈ crossed, crossesTrigger side candle l.trigger = true)
    (hrest : ∀ l, rest.head? = some l → crossesTrigger side candle l.trigger = false) :
    simulate cs start side P levels (fuel + 1) i stop idx hist
      = simulate cs start side P levels fuel (i + 1)
          ((crossed.map TriggerLevel.stopLoss).getLastD stop) (idx + k)
          (hist ++ crossed.map (trailEvent side P candle)) := by
  simp only [simulate, hc]
  rw [hnostop, if_neg Bool.false_ne_true, hsplit,
    runTriggers_crossed side P candle crossed rest stop hist idx hcross hrest]
  dsimp only
  rw [hk]

set_option maxRecDepth 100000 in
/-- Witness for C2: a gap candle crossing the two pending triggers 110 and
120 of a LONG-at-100 ladder with active stop 90. -/
theorem claim_C2_witness :
    simulate w2candles 0 Side.LONG 100 (calculateTriggerLevels 3 100 Side.LONG 10)
        (1 + 1) 1 90 1 []
      = simulate w2candles 0 Side.LONG 100 (calculateTriggerLevels 3 100 Side.LONG 10)
          1 (1 + 1)
          (([⟨110, 100, false, false⟩, ⟨120, 110, false, false⟩].map
            TriggerLevel.stopLoss).getLastD 90)
          (1 + 2)
          ([] ++ [⟨110, 100, false, false⟩, ⟨120, 110, false, false⟩].map
            (trailEvent Side.LONG 100 gapCandle)) :=
  claim_C2 w2candles 0 Side.LONG 100 (calculateTriggerLevels 3 100 Side.LONG 10)
    1 1 1 90 [] gapCandle
    [⟨110, 100, false, false⟩, ⟨120, 110, false, false⟩] [⟨130, 120, false, false⟩] 2
    (by decide) (by decide)
    (by norm_num [calculateTriggerLevels, triggerLevelAt, initialTriggerLevel, List.range'])
    (by decide) (by decide) (by decide)
    (fun l hl => by
      obtain rfl := (Option.some.inj hl).symm
      decide)

/-- Claim C6: the Entry Resolver returns the first crossing in the scan of
offsets `1..H`: if the earliest in-horizon crossing candle satisfies
`high ≥ upwardThreshold` the result is LONG at exactly the upward level with
that offset (also when the candle crosses both levels — upward is checked
first); if it satisfies only `low ≤ downwardThreshold` the result is SHORT
at exactly the downward level. -/
theorem claim_C6 (H : ℕ) (cs : List Candle) (start : ℕ) (up down : ℚ)
    (cj : Candle) (j : ℕ) (h1 : 1 ≤ j) (h2 : j ≤ H)
    (hj : cs.get? (start + j) = some cj)
    (hmin : ∀ j', 1 ≤ j' → j' < j →
      ∃ c', cs.get? (start + j') = some c' ∧ ¬(up ≤ c'.high) ∧ ¬(c'.low ≤ down)) :
    (up ≤ cj.high →
      checkThresholdCrossing H cs start up down = some ⟨Side.LONG, up, j⟩) ∧
    (¬(up ≤ cj.high) → cj.low ≤ down →
      checkThresholdCrossing H cs start up down = some ⟨Side.SHORT, down, j⟩) := by
  constructor
  · intro hup
    unfold checkThresholdCrossing
    rw [crossingSearch_first cs start up down cj j hj H 1 h1 (by omega) hmin (Or.inl hup)]
    rw [if_pos hup]
  · intro hup hdn
    unfold checkThresholdCrossing
    rw [crossingSearch_first cs start up down cj j hj H 1 h1 (by omega) hmin (Or.inr hdn)]
    rw [if_neg hup]

/-- Witness for C6: levels 110/90, no cross at offset 1, upward cross at
offset 2. -/
theorem claim_C6_witness :
    checkThresholdCrossing 3 c6candles 0 110 90 = some ⟨Side.LONG, 110, 2⟩ :=
  (claim_C6 3 c6candles 0 110 90 ⟨2, 100, 111, 99, 110, 0, 2⟩ 2
    (by norm_num) (by norm_num) (by decide)
    (fun j' hj1 hj2 => by
      have hj' : j' = 1 := by omega
      subst hj'
      exact ⟨⟨1, 100, 104, 97, 100, 0, 1⟩, by decide, by decide, by decide⟩)).1
    (by norm_num)

set_option maxRecDepth 100000 in
/-- Claim C3: LONG entry at 189 with a 5% dynamic threshold gives
`delta = 9.45`, initial stop 179.55, trigger 1 at 198.45 with stop 189; the
candle `high = 199, low = 190` promotes the stop to 189 without exiting, and
the following candle with `low = 188` exits at price 189 with `pnl = 0`. -/
theorem claim_C3 :
    (189 : ℚ) * (5 / 100) = 9.45 ∧
    ((calculateTriggerLevels 20 189 Side.LONG 5).getD 0 default).stopLoss = 179.55 ∧
    ((calculateTriggerLevels 20 189 Side.LONG 5).getD 1 default).trigger = 198.45 ∧
    ((calculateTriggerLevels 20 189 Side.LONG 5).getD 1 default).stopLoss = 189 ∧
    (checkTradeOutcome 20 4 c3candles 0 ⟨189, Side.LONG, 1, 5⟩).isSome = true ∧
    ((checkTradeOutcome 20 4 c3candles 0 ⟨189, Side.LONG, 1, 5⟩).getD default).price
      = 189 ∧
    ((checkTradeOutcome 20 4 c3candles 0 ⟨189, Side.LONG, 1, 5⟩).getD
        default).candles_until_exit = 2 ∧
    ((checkTradeOutcome 20 4 c3candles 0 ⟨189, Side.LONG, 1, 5⟩).getD
        default).trailing_stops.map TrailingStopUpdate.type
      = [TrailType.INITIAL, TrailType.TRAIL_UP, TrailType.HIT] ∧
    ((checkTradeOutcome 20 4 c3candles 0 ⟨189, Side.LONG, 1, 5⟩).getD
        default).trailing_stops.map TrailingStopUpdate.price = [179.55, 189, 189] ∧
    ((checkTradeOutcome 20 4 c3candles 0 ⟨189, Side.LONG, 1, 5⟩).getD
        default).trailing_stops.map TrailingStopUpdate.time = [0, 1, 2] ∧
    calculatePnL 189
        ((checkTradeOutcome 20 4 c3candles 0 ⟨189, Side.LONG, 1, 5⟩).getD default).price
        Side.LONG 1
      = (0, 0) := by
  norm_num [checkTradeOutcome, simulate, runTriggers, stopHit, crossesTrigger,
    createTradeExit, initialHistory, calculateTriggerLevels, triggerLevelAt,
    initialTriggerLevel, trailEvent, calculatePnL, c3candles, List.range']

/-- Claim C5: when the trailing-stop simulation of a resolved entry returns
no exit (`checkTradeOutcome = none`), `processCandle` leaves the run state
untouched: no trade record is appended, the balance is unchanged, and no
balance-history entry is written. -/
theorem claim_C5 (N : ℕ) (k p : ℚ) (M H : ℕ) (cs : List Candle) (st : RunState)
    (c : Candle) (lookback : List Candle) (i : ℕ) (tc : Crossing)
    (hcross : checkThresholdCrossing H cs i
        (upThreshold c (dynamicThresholdV1 N k lookback))
        (downThreshold c (dynamicThresholdV1 N k lookback)) = some tc)
    (hexit : checkTradeOutcome M H cs (i + tc.candles_until_cross)
        ⟨tc.entry_price, tc.direction,
         calculateTradeSize p st.currentBalance tc.entry_price,
         dynamicThresholdV1 N k lookback⟩ = none) :
    processCandleState N k p M H cs st c lookback i = st := by
  unfold processCandleState
  cases hL : isLegendV1 N k lookback c with
  | false => rw [if_neg Bool.false_ne_true]
  | true =>
    rw [if_pos rfl]
    simp only [hcross, hexit]

set_option maxRecDepth 100000 in
/-- Witness for C5: a legend with a resolved LONG entry whose simulation
runs off the end of the candle store; the run state is returned unchanged. -/
theorem claim_C5_witness :
    processCandleState 1 1 100 2 3 c5candles ⟨1000, [], []⟩
        ⟨1, 100, 110, 100, 110, 0, 1⟩ [⟨0, 100, 101, 99, 101, 0, 0⟩] 1
      = ⟨1000, [], []⟩ :=
  claim_C5 1 1 100 2 3 c5candles ⟨1000, [], []⟩ ⟨1, 100, 110, 100, 110, 0, 1⟩
    [⟨0, 100, 101, 99, 101, 0, 0⟩] 1 ⟨Side.LONG, 1111 / 10, 1⟩
    (by norm_num [checkThresholdCrossing, crossingSearch, upThreshold, downThreshold,
      dynamicThresholdV1, mean, lastN, windowDiffV1, c5candles, abs_of_nonneg])
    (by norm_num [checkTradeOutcome, simulate, runTriggers, stopHit, crossesTrigger,
      createTradeExit, initialHistory, calculateTriggerLevels, triggerLevelAt,
      initialTriggerLevel, trailEvent, calculateTradeSize, c5candles, List.range'])

/-- Claim C10: within one simulation the active stop is monotone toward
profit: the logged stop prices from the INITIAL event through the last TRAIL
event (all events except the final HIT) step by exactly
`sideSign side * delta` per promotion, hence are strictly increasing for
LONG and strictly decreasing for SHORT whenever `entryPrice > 0` and
`dynamicThreshold > 0`. -/
theorem claim_C10 (M H : ℕ) (cs : List Candle) (start : ℕ) (side : Side)
    (P t sz : ℚ) (ex : TradeExit) (hP : 0 < P) (ht : 0 < t)
    (hexit : checkTradeOutcome M H cs start ⟨P, side, sz, t⟩ = some ex) :
    List.Chain' (fun a b => b = a + sideSign side * (P * (t / 100)))
      (ex.trailing_stops.dropLast.map TrailingStopUpdate.price) ∧
    (side = Side.LONG →
      List.Chain' (fun a b => a < b)
        (ex.trailing_stops.dropLast.map TrailingStopUpdate.price)) ∧
    (side = Side.SHORT →
      List.Chain' (fun a b => b < a)
        (ex.trailing_stops.dropLast.map TrailingStopUpdate.price)) := by
  unfold checkTradeOutcome at hexit
  dsimp only at hexit
  have hh : (initialHistory cs start ⟨P, side, sz, t⟩
        (((calculateTriggerLevels M P side t).getD 0 default).stopLoss)).map
        TrailingStopUpdate.price
      = (List.range' 1 1).map (stopVal side P (P * (t / 100))) := by
    show [((calculateTriggerLevels M P side t).getD 0 default).stopLoss]
      = [stopVal side P (P * (t / 100)) 1]
    rw [initial_stopLoss]
  obtain ⟨m, hm, hmap, hpr⟩ :=
    simulate_price_trace M cs start side P t H 1 1 _ _ ex le_rfl
      (initial_stopLoss M P t side) hh hexit
  have hd : 0 < P * (t / 100) := by positivity
  have hstep : ∀ j : ℕ, stopVal side P (P * (t / 100)) (j + 1)
      = stopVal side P (P * (t / 100)) j + sideSign side * (P * (t / 100)) := by
    intro j
    unfold stopVal
    push_cast
    ring
  refine ⟨?_, ?_, ?_⟩
  · rw [hmap]
    exact chain'_range'_map (stopVal side P (P * (t / 100)))
      (fun a b => b = a + sideSign side * (P * (t / 100))) (fun j => hstep j) m 1
  · intro hs
    subst hs
    rw [hmap]
    refine chain'_range'_map (stopVal Side.LONG P (P * (t / 100)))
      (fun a b => a < b) (fun j => ?_) m 1
    rw [hstep j]
    simp only [sideSign, one_mul]
    linarith
  · intro hs
    subst hs
    rw [hmap]
    refine chain'_range'_map (stopVal Side.SHORT P (P * (t / 100)))
      (fun a b => b < a) (fun j => ?_) m 1
    rw [hstep j]
    simp only [sideSign, neg_one_mul]
    linarith

set_option maxRecDepth 100000 in
/-- Witness for C10: LONG at 100 with a 10% threshold, one promotion, then a
stop-hit; the logged INITIAL/TRAIL prices are strictly increasing. -/
theorem claim_C10_witness :
    List.Chain' (fun a b => a < b)
      (((checkTradeOutcome 2 4 c10candles 0 ⟨100, Side.LONG, 1, 10⟩).getD
          default).trailing_stops.dropLast.map TrailingStopUpdate.price) :=
  (claim_C10 2 4 c10candles 0 Side.LONG 100 10 1
    ((checkTradeOutcome 2 4 c10candles 0 ⟨100, Side.LONG, 1, 10⟩).getD default)
    (by norm_num) (by norm_num)
    (by norm_num [checkTradeOutcome, simulate, runTriggers, stopHit, crossesTrigger,
      createTradeExit, initialHistory, calculateTriggerLevels, triggerLevelAt,
      initialTriggerLevel, trailEvent, c10candles, List.range'])).2.1 rfl

end Backtest
